import Mathlib

/-!
# assbolt: a verification development for `main.go`

A shallow embedding of the Passbolt desktop viewer's `main.go`: credential
loading, the MFA challenge responder and its two callbacks, MFA selection,
client construction / login sequencing, and the search filter of the resource
list.

Conventions of the embedding.

* Go strings are Lean `String`s (valid UTF-8 text); the `strings` functions the
  program calls are written over the list of runes.
* `log.Fatalf` ends the process: a function that may call it returns
  `Except Fatal α`.
* A Go `(value, error)` result is a pair `α × Option GoError`; `none` is `nil`.
* Calls into external libraries (`go-passbolt`, `otp/totp`, the process
  environment, the file system) are parameters of the embedding; every call the
  program makes to them is recorded as an `Event`.
-/

namespace Assbolt

/-! ## The `strings` / `unicode` functions used by the program -/

/-- Go `unicode.IsSpace`: the Latin-1 switch, and the `White_Space` table above
Latin-1. -/
def isSpace (r : Char) : Bool :=
  let n := r.toNat
  if n ≤ 0xFF then
    n == 0x09 || n == 0x0A || n == 0x0B || n == 0x0C || n == 0x0D || n == 0x20 ||
      n == 0x85 || n == 0xA0
  else
    n == 0x1680 || (0x2000 ≤ n && n ≤ 0x200A) || n == 0x2028 || n == 0x2029 ||
      n == 0x202F || n == 0x205F || n == 0x3000

/-- Runes of a string with leading and trailing white space removed. -/
def trimRunes (l : List Char) : List Char :=
  ((l.dropWhile isSpace).reverse.dropWhile isSpace).reverse

/-- Go `strings.TrimSpace`. -/
def TrimSpace (s : String) : String :=
  ⟨trimRunes s.data⟩

/-- Go `unicode.ToLower` on one rune: ASCII is handled directly, every other
rune is looked up in the case table `tbl` (Go's `unicode.CaseRanges`, which is
not part of this repository and is therefore a parameter). -/
def toLowerRune (tbl : Char → Char) (r : Char) : Char :=
  if r.toNat ≤ 0x7F then
    if 0x41 ≤ r.toNat ∧ r.toNat ≤ 0x5A then Char.ofNat (r.toNat + 0x20) else r
  else tbl r

/-- Go `strings.ToLower`: the rune-wise lower-case mapping. -/
def ToLower (tbl : Char → Char) (s : String) : String :=
  ⟨s.data.map (toLowerRune tbl)⟩

/-- Go `strings.HasPrefix` over runes. -/
def hasPrefixRunes : List Char → List Char → Bool
  | _, [] => true
  | [], _ :: _ => false
  | c :: s, d :: p => c == d && hasPrefixRunes s p

/-- Substring search over runes: is `p` found at some offset of `s`. -/
def containsRunes : List Char → List Char → Bool
  | [], p => hasPrefixRunes [] p
  | c :: s, p => hasPrefixRunes (c :: s) p || containsRunes s p

/-- Go `strings.Contains`. -/
def Contains (s substr : String) : Bool :=
  containsRunes s.data substr.data

/-! ## Errors and process termination -/

/-- Go `error` values the program handles. -/
inductive GoError where
  /-- An error value produced by an external library, identified by its text -/
  | lib (msg : String)
  /-- Result of `fmt.Errorf(msg)`, no error wrapped -/
  | errorf (msg : String)
  /-- Result of `fmt.Errorf(pre + ": %w", inner)` -/
  | wrap (pre : String) (inner : GoError)
  deriving DecidableEq, Repr

/-- The two `log.Fatalf` calls of the program, each with its argument; either
one ends the process. -/
inductive Fatal where
  /-- Message `Environment variable %s is required`, from `mustGetEnv` -/
  | envRequired (key : String)
  /-- Message `reading private key file: %v`, from `loadCredentials` -/
  | readKeyFile (err : GoError)
  deriving DecidableEq, Repr

/-! ## Resource list and search filter (`buildUI`) -/

/-- The fields of `api.Resource` the program reads. -/
structure Resource where
  ID : String
  Name : String
  deriving DecidableEq, Repr

/-- The data fields of `uiState` (widget handles carry no data of their own). -/
structure uiState where
  resources : List Resource
  filtered : List Resource
  deriving DecidableEq, Repr

/-- The loop body of the search filter: `append` the resource when its
lower-cased name contains the query. -/
def filterStep (tbl : Char → Char) (q : String) (acc : List Resource) (r : Resource) :
    List Resource :=
  if Contains (ToLower tbl r.Name) q then acc ++ [r] else acc

/-- The closure assigned to `state.searchEntry.OnChanged` in `buildUI`. -/
def searchOnChanged (tbl : Char → Char) (state : uiState) (q : String) : uiState :=
  let q := ToLower tbl (TrimSpace q)
  if q = "" then
    { state with filtered := state.resources }
  else
    { state with filtered := state.resources.foldl (filterStep tbl q) [] }

/-- The statement `state.filtered = state.resources` that `buildUI` runs before
it creates the list widget. -/
def buildUIInit (state : uiState) : uiState :=
  { state with filtered := state.resources }

/-! ## Process environment and credentials -/

/-- The process environment: `none` is an unset variable. -/
abbrev Env := String → Option String

/-- Go `os.Getenv`: the value, or the empty string when the variable is unset. -/
def Getenv (env : Env) (key : String) : String :=
  (env key).getD ""

/-- The file system as `ioutil.ReadFile` sees it: contents or an error. -/
abbrev FileSystem := String → Except GoError String

/-- The four named results of `loadCredentials`. -/
structure Credentials where
  serverURL : String
  privKey : String
  passphrase : String
  totpSecret : String
  deriving DecidableEq, Repr

/-- Go `mustGetEnv`. -/
def mustGetEnv (env : Env) (key : String) : Except Fatal String :=
  let v := TrimSpace (Getenv env key)
  if v = "" then
    .error (.envRequired key)
  else
    .ok v

/-- Go `loadCredentials`. -/
def loadCredentials (env : Env) (fs : FileSystem) : Except Fatal Credentials :=
  match mustGetEnv env "PASSBOLT_URL" with
  | .error f => .error f
  | .ok serverURL =>
    match mustGetEnv env "PASSBOLT_PASSPHRASE" with
    | .error f => .error f
    | .ok passphrase =>
      let totpSecret := Getenv env "PASSBOLT_TOTP_SECRET"
      let key := Getenv env "PASSBOLT_PRIVATE_KEY"
      if key ≠ "" then
        .ok ⟨serverURL, key, passphrase, totpSecret⟩
      else
        match mustGetEnv env "PASSBOLT_PRIVATE_KEY_FILE" with
        | .error f => .error f
        | .ok keyPath =>
          match fs keyPath with
          | .error err => .error (.readKeyFile err)
          | .ok b => .ok ⟨serverURL, b, passphrase, totpSecret⟩

/-! ## The remote client and its MFA callback -/

/-- The fields of `http.Cookie` that identify a cookie. -/
structure Cookie where
  Name : String
  Value : String
  Path : String
  Domain : String
  Secure : Bool
  HttpOnly : Bool
  deriving DecidableEq, Repr

/-- The Go zero value `http.Cookie{}`. -/
def Cookie.zero : Cookie := ⟨"", "", "", "", false, false⟩

/-- The arguments of `DoCustomRequestAndReturnRawResponse`; `totp` is the body
`api.MFAChallengeResponse{TOTP: code}`. -/
structure Request where
  method : String
  path : String
  version : String
  totp : String
  deriving DecidableEq, Repr

/-- A `fyne.App` handle. -/
structure App where
  id : Nat
  deriving DecidableEq, Repr

/-- The two closures that can be stored in `api.Client.MFACallback`, with the
variable each one captures. -/
inductive MFACallbackFn where
  /-- The closure returned by `autoTOTPCallback(secret)` -/
  | auto (secret : String)
  /-- The closure returned by `interactiveMFACallback(app)` -/
  | interactive (app : App)
  deriving DecidableEq, Repr

/-- The `api.Client` state the program depends on: what it was built from, and
the callback field the program assigns. -/
structure Client where
  baseURL : String
  userPrivateKey : String
  userPassword : String
  MFACallback : Option MFACallbackFn
  deriving DecidableEq, Repr

/-- A point in time, as returned by `time.Now()`. -/
abbrev Time := Int

/-- The external library calls the program makes. -/
structure Lib where
  /-- Call `api.NewClient(nil, "", url, privKey, pw)` -/
  NewClient : String → String → String → Except GoError Client
  /-- Call `client.Login(ctx)` -/
  Login : Client → Option GoError
  /-- Call `c.DoCustomRequestAndReturnRawResponse(...)`, reduced to `raw.Cookies()` -/
  DoCustomRequest : Client → Request → Except GoError (List Cookie)
  /-- Call `totp.GenerateCode(secret, t)` -/
  GenerateCode : String → Time → Except GoError String

/-- What can come of one request made through the client library: no answer at
all, or an answer with its cookies which the library may still report as an
error (an error status in the answer). -/
inductive Exchange where
  | transportError (err : GoError)
  | answered (cookies : List Cookie) (apiErr : Option GoError)
  deriving DecidableEq, Repr

/-- What the library hands back as `raw.Cookies()` and `err` for an exchange:
the program reads the cookies only when `err` is nil. -/
def Exchange.result : Exchange → Except GoError (List Cookie)
  | .transportError err => .error err
  | .answered _ (some err) => .error err
  | .answered cookies none => .ok cookies

/-- One record per call that leaves the program. -/
inductive Event where
  | newClient (url privKey pw : String)
  | setMFACallback (fn : MFACallbackFn)
  | login (c : Client)
  | generateCode (secret : String) (t : Time)
  | request (c : Client) (r : Request)
  deriving DecidableEq, Repr

/-- A Go `(http.Cookie, error)` result. -/
abbrev CookieResult := Cookie × Option GoError

/-- The `for ... range raw.Cookies()` loop of `verifyTOTP`. -/
def findMFACookie : List Cookie → Option Cookie
  | [] => none
  | ck :: rest => if ck.Name = "passbolt_mfa" then some ck else findMFACookie rest

/-- The request `verifyTOTP` sends for a code. -/
def totpRequest (code : String) : Request :=
  ⟨"POST", "mfa/verify/totp.json", "v2", code⟩

/-- The error `verifyTOTP` builds when the cookie is missing. -/
def verificationFailed : GoError :=
  .errorf "passbolt_mfa cookie not returned – verification failed"

/-- Go `verifyTOTP`, with the calls it made. -/
def verifyTOTP (lib : Lib) (c : Client) (code : String) : CookieResult × List Event :=
  let resp := totpRequest code
  match lib.DoCustomRequest c resp with
  | .error err => ((Cookie.zero, some err), [.request c resp])
  | .ok cookies =>
    match findMFACookie cookies with
    | some ck => ((ck, none), [.request c resp])
    | none => ((Cookie.zero, some verificationFailed), [.request c resp])

/-- Go `autoTOTPCallback(secret)`: the closure value. -/
def autoTOTPCallback (secret : String) : MFACallbackFn :=
  .auto secret

/-- The body of the closure returned by `autoTOTPCallback(secret)`, run at time
`now`, with the calls it made. -/
def autoTOTPCall (lib : Lib) (now : Time) (secret : String) (c : Client) :
    CookieResult × List Event :=
  match lib.GenerateCode secret now with
  | .error err => ((Cookie.zero, some err), [.generateCode secret now])
  | .ok code =>
    let r := verifyTOTP lib c code
    (r.1, .generateCode secret now :: r.2)

/-- Go `interactiveMFACallback(app)`: the closure value. -/
def interactiveMFACallback (app : App) : MFACallbackFn :=
  .interactive app

/-- Go `configureMFA`. -/
def configureMFA (c : Client) (totpSecret : String) (app : App) : Client × List Event :=
  if totpSecret ≠ "" then
    ({ c with MFACallback := some (autoTOTPCallback totpSecret) },
      [.setMFACallback (autoTOTPCallback totpSecret)])
  else
    ({ c with MFACallback := some (interactiveMFACallback app) },
      [.setMFACallback (interactiveMFACallback app)])

/-- A Go `(*api.Client, error)` result; `none` is `nil`. -/
abbrev ClientResult := Option Client × Option GoError

/-- Go `newClient`: how the process continues (`.error` when `log.Fatalf` ended
it), and the calls made in order. -/
def newClient (env : Env) (fs : FileSystem) (lib : Lib) (app : App) :
    Except Fatal ClientResult × List Event :=
  match loadCredentials env fs with
  | .error f => (.error f, [])
  | .ok cr =>
    match lib.NewClient cr.serverURL cr.privKey cr.passphrase with
    | .error err =>
      (.ok (none, some (.wrap "new client" err)),
        [.newClient cr.serverURL cr.privKey cr.passphrase])
    | .ok client =>
      let cfg := configureMFA client cr.totpSecret app
      match lib.Login cfg.1 with
      | some err =>
        (.ok (none, some err),
          .newClient cr.serverURL cr.privKey cr.passphrase :: cfg.2 ++ [.login cfg.1])
      | none =>
        (.ok (some cfg.1, none),
          .newClient cr.serverURL cr.privKey cr.passphrase :: cfg.2 ++ [.login cfg.1])

/-! ## The interactive callback: hand-off between background and UI thread

The closure returned by `interactiveMFACallback` runs on a background
goroutine. It creates the unbuffered channel `codeCh`, queues the prompt
construction on the UI thread with `fyne.Do`, blocks in `<-codeCh`, and passes
what it receives to `verifyTOTP`. The handler of `okBtn` runs on the UI thread:
it sends `strings.TrimSpace(entry.Text)` on `codeCh` and then closes the
window. A send on an unbuffered channel completes only together with a
receive. The two threads are interleaved by a list of `Step`s; every
interleaving is a list, whether `fyne.Do` returns before or after the queued
function has run.
-/

/-- Where the background goroutine stands in the closure body. -/
inductive Background where
  /-- After `fyne.Do(...)`; `<-codeCh` not reached yet -/
  | queued
  /-- Blocked in `code := <-codeCh` -/
  | receiving
  /-- Resumed with `code`; `verifyTOTP` not called yet -/
  | received (code : String)
  /-- The closure returned `r` -/
  | returned (r : CookieResult)
  deriving DecidableEq, Repr

/-- The prompt window: its construction is still queued, it is shown, or
`Close` was called on it. -/
inductive Window where
  | pending
  | shown
  | closed
  deriving DecidableEq, Repr

/-- State of one invocation of the interactive callback. -/
structure Handoff where
  bg : Background
  win : Window
  /-- Field `entry.Text` -/
  entryText : String
  /-- The UI thread is inside the `okBtn` handler, blocked in `codeCh <- v` -/
  sending : Option String
  /-- Completed sends on `codeCh` -/
  sends : Nat
  /-- Completed receives on `codeCh` -/
  recvs : Nat
  /-- Calls made so far through the client -/
  calls : List Event
  deriving DecidableEq, Repr

/-- One step of either thread. The UI steps are the queued prompt construction
and the user's actions on the prompt; `okHandler` is one invocation of the
`okBtn` handler. -/
inductive Step where
  | runQueued
  | edit (text : String)
  | okHandler
  | closeWindow
  | background
  deriving DecidableEq, Repr

/-- The state right after the background goroutine called `fyne.Do`. -/
def Handoff.init : Handoff :=
  ⟨.queued, .pending, "", none, 0, 0, []⟩

/-- The `okBtn` handler: `codeCh <- strings.TrimSpace(entry.Text)` followed by
`win.Close()`. The send completes at once when the background goroutine is
blocked in its receive; otherwise the UI thread stays blocked in the send. -/
def okTapped (s : Handoff) : Handoff :=
  let v := TrimSpace s.entryText
  match s.bg with
  | .receiving =>
    { s with bg := .received v, sends := s.sends + 1, recvs := s.recvs + 1, win := .closed }
  | _ => { s with sending := some v }

/-- One statement of the background goroutine: reach the receive (completing a
send that is already waiting, after which the handler closes the window), stay
blocked in it, or call `verifyTOTP` with the received code and return. -/
def backgroundStep (lib : Lib) (c : Client) (s : Handoff) : Handoff :=
  match s.bg with
  | .queued =>
    match s.sending with
    | some v =>
      { s with bg := .received v, sending := none, sends := s.sends + 1,
               recvs := s.recvs + 1, win := .closed }
    | none => { s with bg := .receiving }
  | .receiving => s
  | .received code =>
    let r := verifyTOTP lib c code
    { s with bg := .returned r.1, calls := s.calls ++ r.2 }
  | .returned _ => s

/-- One step of the system. The UI thread is single: it takes no step while it
is blocked in a send. The prompt's widgets exist once the queued construction
has run, and the user acts on them while the window is shown: once the handler
has called `win.Close()` no further edit or confirmation reaches the prompt. -/
def step (lib : Lib) (c : Client) (s : Handoff) : Step → Handoff
  | .runQueued =>
    if s.win = .pending ∧ s.sending = none then { s with win := .shown } else s
  | .edit text =>
    if s.win = .shown ∧ s.sending = none then { s with entryText := text } else s
  | .okHandler =>
    if s.win = .shown ∧ s.sending = none then okTapped s else s
  | .closeWindow =>
    if s.win = .shown ∧ s.sending = none then { s with win := .closed } else s
  | .background => backgroundStep lib c s

/-- Run a list of steps. -/
def run (lib : Lib) (c : Client) (s : Handoff) (steps : List Step) : Handoff :=
  steps.foldl (step lib c) s

/-- What holds of every state reachable from `Handoff.init`. -/
def Handoff.Inv (lib : Lib) (c : Client) (s : Handoff) : Prop :=
  match s.bg with
  | .queued => s.sends = 0 ∧ s.recvs = 0 ∧ s.calls = []
  | .receiving => s.sends = 0 ∧ s.recvs = 0 ∧ s.calls = [] ∧ s.sending = none
  | .received _ =>
    s.sends = 1 ∧ s.recvs = 1 ∧ s.calls = [] ∧ s.win = .closed ∧ s.sending = none
  | .returned r =>
    s.sends = 1 ∧ s.recvs = 1 ∧ s.win = .closed ∧ s.sending = none ∧
      ∃ v, r = (verifyTOTP lib c v).1 ∧ s.calls = [.request c (totpRequest v)]

/-- What holds from the moment the handler was invoked with `code` as the
trimmed entry text, before any hand-off. -/
def Handoff.Confirmed (lib : Lib) (c : Client) (code : String) (s : Handoff) : Prop :=
  (s.bg = .queued ∧ s.sending = some code ∧ s.calls = []) ∨
  (s.bg = .received code ∧ s.calls = []) ∨
  (s.bg = .returned (verifyTOTP lib c code).1 ∧ s.calls = [.request c (totpRequest code)])

/-- Number of MFA verification requests among the calls. -/
def countRequests : List Event → Nat
  | [] => 0
  | .request _ _ :: es => countRequests es + 1
  | _ :: es => countRequests es

/-- Calling a stored callback, as `Login` does with `c.MFACallback(ctx, c, resp)`:
the automatic closure runs its body with the secret it captured; the
interactive closure runs the hand-off under the given interleaving and has a
result once its goroutine has returned. -/
def MFACallbackFn.call (lib : Lib) (now : Time) (steps : List Step) (c : Client) :
    MFACallbackFn → Option CookieResult × List Event
  | .auto secret =>
    let r := autoTOTPCall lib now secret c
    (some r.1, r.2)
  | .interactive _ =>
    let s := run lib c Handoff.init steps
    match s.bg with
    | .returned r => (some r, s.calls)
    | _ => (none, s.calls)

/-! ## Concrete data used by the worked instances -/

/-- A case table that leaves every rune above ASCII unchanged. -/
def plainTable : Char → Char := fun r => r

def gitHub : Resource := ⟨"r1", "GitHub"⟩
def gitea : Resource := ⟨"r2", "Gitea"⟩
def jenkins : Resource := ⟨"r3", "Jenkins"⟩

/-- The resource list GitHub, Gitea, Jenkins with an empty filtered view. -/
def demoState : uiState := ⟨[gitHub, gitea, jenkins], []⟩

/-- Every spelling of `git` in upper and lower case. -/
def gitQueries : List String :=
  ["git", "Git", "gIt", "giT", "GIt", "GiT", "gIT", "GIT"]

def sessionCookie : Cookie := ⟨"session", "s0", "/", "", true, true⟩
def mfaCookie : Cookie := ⟨"passbolt_mfa", "tok-1", "/", "", true, true⟩
def mfaCookieLater : Cookie := ⟨"passbolt_mfa", "tok-2", "/", "", true, true⟩

def demoClient : Client := ⟨"https://passbolt.example", "KEY", "pw", none⟩

/-- A library whose MFA endpoint answers with three cookies, two of them named
`passbolt_mfa`. -/
def demoLib : Lib where
  NewClient := fun url key pw => .ok ⟨url, key, pw, none⟩
  Login := fun _ => none
  DoCustomRequest := fun _ _ => .ok [sessionCookie, mfaCookie, mfaCookieLater]
  GenerateCode := fun _ _ => .ok "482913"

/-- An environment given by a list of assignments. -/
def envOf (l : List (String × String)) : Env := fun k => l.lookup k

/-- A file system with no readable file. -/
def noFiles : FileSystem := fun _ => .error (.lib "open: no such file or directory")

/-- A file system whose only file, `/keys/empty.asc`, is empty. -/
def emptyKeyFile : FileSystem := fun path =>
  if path = "/keys/empty.asc" then .ok "" else .error (.lib "open: no such file or directory")

/-- Server URL, passphrase and the private key given directly. -/
def envDirectKey : Env :=
  envOf [("PASSBOLT_URL", "https://passbolt.example"), ("PASSBOLT_PASSPHRASE", "pw"),
    ("PASSBOLT_PRIVATE_KEY", "KEY")]

/-- Server URL, passphrase and a key file path; `PASSBOLT_PRIVATE_KEY` unset. -/
def envKeyFile (path : String) : Env :=
  envOf [("PASSBOLT_URL", "https://passbolt.example"), ("PASSBOLT_PASSPHRASE", "pw"),
    ("PASSBOLT_PRIVATE_KEY_FILE", path)]

/-- A library whose client constructor rejects every key. -/
def rejectingLib : Lib where
  NewClient := fun _ _ _ => .error (.lib "parsing user private key")
  Login := fun _ => none
  DoCustomRequest := fun _ _ => .ok []
  GenerateCode := fun _ _ => .error (.lib "decoding of secret as base32 failed")

/-- What `loadCredentials` returns in `envDirectKey`. -/
def demoCredentials : Credentials := ⟨"https://passbolt.example", "KEY", "pw", ""⟩

def demoApp : App := ⟨1⟩

/-- The environment `envDirectKey` with a TOTP secret added. -/
def envWithSecret : Env :=
  envOf [("PASSBOLT_URL", "https://passbolt.example"), ("PASSBOLT_PASSPHRASE", "pw"),
    ("PASSBOLT_PRIVATE_KEY", "KEY"), ("PASSBOLT_TOTP_SECRET", "JBSWY3DPEHPK3PXP")]

/-- A library whose MFA endpoint answers with the `passbolt_mfa` cookie but
reports the answer as an error. -/
def apiErrorLib : Lib where
  NewClient := fun url key pw => .ok ⟨url, key, pw, none⟩
  Login := fun _ => none
  DoCustomRequest := fun _ _ =>
    (Exchange.answered [mfaCookie] (some (.lib "Error API JSON Response Status"))).result
  GenerateCode := fun _ _ => .ok "482913"

/-- Server URL and passphrase, `PASSBOLT_PRIVATE_KEY` set to the empty string,
no key file variable. -/
def envEmptyKey : Env :=
  envOf [("PASSBOLT_URL", "https://passbolt.example"), ("PASSBOLT_PASSPHRASE", "pw"),
    ("PASSBOLT_PRIVATE_KEY", "")]

/-- The code `482913` as typed, without and with surrounding white space. -/
def paddedCodes : List String :=
  ["482913", " 482913", "482913 ", "  482913  ", "\t482913\n", " 482913\r\n"]

/-- The prompt is built, the background goroutine blocks in its receive, and
the user types the code followed by a blank. -/
def promptFilled : List Step :=
  [.runQueued, .background, .edit "482913 "]

theorem hasPrefixRunes_iff (s p : List Char) : hasPrefixRunes s p = true ↔ p <+: s := by
  induction s generalizing p with
  | nil => cases p <;> simp [hasPrefixRunes]
  | cons c s ih =>
    cases p with
    | nil => simp [hasPrefixRunes]
    | cons d p =>
      simp only [hasPrefixRunes, Bool.and_eq_true, beq_iff_eq, ih, List.cons_prefix_cons]
      constructor
      · rintro ⟨h, hp⟩; exact ⟨h.symm, hp⟩
      · rintro ⟨h, hp⟩; exact ⟨h.symm, hp⟩

theorem containsRunes_iff (s p : List Char) : containsRunes s p = true ↔ p <:+: s := by
  induction s with
  | nil =>
    simp only [containsRunes, hasPrefixRunes_iff]
    constructor
    · intro h; exact h.isInfix
    · intro h
      have := List.eq_nil_of_infix_nil h
      subst this; exact List.prefix_refl _
  | cons c s ih =>
    simp only [containsRunes, Bool.or_eq_true, hasPrefixRunes_iff, ih, List.infix_cons_iff]

theorem Contains_iff (s p : String) : Contains s p = true ↔ p.data <:+: s.data :=
  containsRunes_iff _ _

theorem Contains_empty (s : String) : Contains s "" = true := by
  rw [Contains_iff]; exact List.nil_infix

theorem trimRunes_decompose (l : List Char) :
    l = l.takeWhile isSpace ++ trimRunes l
          ++ ((l.dropWhile isSpace).reverse.takeWhile isSpace).reverse := by
  have h1 := (List.takeWhile_append_dropWhile isSpace l).symm
  have h2 := (List.takeWhile_append_dropWhile isSpace (l.dropWhile isSpace).reverse).symm
  have h3 := congrArg List.reverse h2
  rw [List.reverse_reverse, List.reverse_append] at h3
  rw [List.append_assoc]
  unfold trimRunes
  rw [← h3]
  exact h1

theorem trimRunes_surroundings (l : List Char) :
    ∃ pre post, l = pre ++ trimRunes l ++ post ∧
      (∀ c ∈ pre, isSpace c = true) ∧ (∀ c ∈ post, isSpace c = true) := by
  refine ⟨_, _, trimRunes_decompose l, ?_, ?_⟩
  · intro c hc; exact List.mem_takeWhile_imp hc
  · intro c hc
    exact List.mem_takeWhile_imp (List.mem_reverse.1 hc)

theorem trimRunes_last (l : List Char) (c : Char) (h : (trimRunes l).getLast? = some c) :
    isSpace c = false := by
  unfold trimRunes at h
  rw [List.getLast?_reverse] at h
  have := List.head?_dropWhile_not isSpace (l.dropWhile isSpace).reverse
  rw [h] at this
  simpa using this

theorem trimRunes_head (l : List Char) (c : Char) (h : (trimRunes l).head? = some c) :
    isSpace c = false := by
  have hd := trimRunes_decompose l
  have h2 : (l.dropWhile isSpace).head? = some c := by
    have h3 : l.dropWhile isSpace = trimRunes l
          ++ ((l.dropWhile isSpace).reverse.takeWhile isSpace).reverse := by
      have h1 := (List.takeWhile_append_dropWhile isSpace l).symm
      rw [List.append_assoc] at hd
      have := hd.symm.trans h1
      exact (List.append_cancel_left this).symm
    rw [h3]
    cases ht : trimRunes l with
    | nil => rw [ht] at h; cases h
    | cons x xs => rw [ht] at h; simpa using h
  have := List.head?_dropWhile_not isSpace l
  rw [h2] at this
  simpa using this
/-- What `TrimSpace` removes and what it leaves: the argument is the result
between two runs of white space, and the result neither starts nor ends with
white space. -/
theorem TrimSpace_spec (s : String) :
    (∃ pre post, s.data = pre ++ (TrimSpace s).data ++ post ∧
      (∀ c ∈ pre, isSpace c = true) ∧ (∀ c ∈ post, isSpace c = true)) ∧
    (∀ c, (TrimSpace s).data.head? = some c → isSpace c = false) ∧
    (∀ c, (TrimSpace s).data.getLast? = some c → isSpace c = false) :=
  ⟨trimRunes_surroundings s.data, trimRunes_head s.data, trimRunes_last s.data⟩

theorem foldl_filterStep (tbl : Char → Char) (q : String) (rs acc : List Resource) :
    rs.foldl (filterStep tbl q) acc
      = acc ++ rs.filter (fun r => Contains (ToLower tbl r.Name) q) := by
  induction rs generalizing acc with
  | nil => simp
  | cons r rs ih =>
    rw [List.foldl_cons, ih]
    by_cases h : Contains (ToLower tbl r.Name) q = true
    · simp [filterStep, h, List.filter_cons]
    · simp [filterStep, h, List.filter_cons]

theorem searchOnChanged_filtered (tbl : Char → Char) (state : uiState) (q : String) :
    (searchOnChanged tbl state q).filtered
      = state.resources.filter
          (fun r => Contains (ToLower tbl r.Name) (ToLower tbl (TrimSpace q))) := by
  unfold searchOnChanged
  by_cases h : ToLower tbl (TrimSpace q) = ""
  · simp [h, Contains_empty]
  · simp [h, foldl_filterStep]

/-! ## The challenge responder -/

theorem findMFACookie_none_iff (cookies : List Cookie) :
    findMFACookie cookies = none ↔ ∀ ck ∈ cookies, ck.Name ≠ "passbolt_mfa" := by
  induction cookies with
  | nil => simp [findMFACookie]
  | cons ck rest ih =>
    by_cases h : ck.Name = "passbolt_mfa"
    · simp [findMFACookie, h]
    · simp [findMFACookie, h, ih]

theorem findMFACookie_first (pre post : List Cookie) (ck : Cookie)
    (hpre : ∀ x ∈ pre, x.Name ≠ "passbolt_mfa") (hck : ck.Name = "passbolt_mfa") :
    findMFACookie (pre ++ ck :: post) = some ck := by
  induction pre with
  | nil => simp [findMFACookie, hck]
  | cons x pre ih =>
    have hx : x.Name ≠ "passbolt_mfa" := hpre x (List.mem_cons_self _ _)
    have := ih (fun y hy => hpre y (List.mem_cons_of_mem _ hy))
    simp [findMFACookie, hx, this]

theorem verifyTOTP_ok (lib : Lib) (c : Client) (code : String) (cookies : List Cookie)
    (h : lib.DoCustomRequest c (totpRequest code) = .ok cookies) :
    (verifyTOTP lib c code).1 =
      match findMFACookie cookies with
      | some ck => (ck, none)
      | none => (Cookie.zero, some verificationFailed) := by
  unfold verifyTOTP
  simp only [h]
  cases findMFACookie cookies <;> rfl

theorem verifyTOTP_events (lib : Lib) (c : Client) (code : String) :
    (verifyTOTP lib c code).2 = [.request c (totpRequest code)] := by
  simp only [verifyTOTP]
  split
  · rfl
  · split <;> rfl

/-- C1 (as amended): when the client library returns the answer to the MFA
request with a nil error, `verifyTOTP` returns a nil error exactly when the
answer's cookies contain one named `passbolt_mfa`; the cookie returned is then
the first cookie of that name; and when no cookie has that name (the empty set
included) the result is the zero cookie with the verification-failure error.
When the library returns an error, be it a transport failure or an answer it
reports as an error, `verifyTOTP` returns the zero cookie and that error
unchanged, whatever cookies the answer carried. -/
theorem verifyTOTP_token_iff_marker_cookie (lib : Lib) (c : Client) (code : String) :
    (∀ cookies, lib.DoCustomRequest c (totpRequest code) = .ok cookies →
      ((verifyTOTP lib c code).1.2 = none ↔ ∃ ck ∈ cookies, ck.Name = "passbolt_mfa") ∧
      (∀ pre ck post, cookies = pre ++ ck :: post →
          (∀ x ∈ pre, x.Name ≠ "passbolt_mfa") → ck.Name = "passbolt_mfa" →
          (verifyTOTP lib c code).1 = (ck, none)) ∧
      ((∀ ck ∈ cookies, ck.Name ≠ "passbolt_mfa") →
          (verifyTOTP lib c code).1 = (Cookie.zero, some verificationFailed))) ∧
    (∀ e, lib.DoCustomRequest c (totpRequest code) = .error e →
      (verifyTOTP lib c code).1 = (Cookie.zero, some e)) ∧
    (∀ x, lib.DoCustomRequest c (totpRequest code) = Exchange.result x →
      ((verifyTOTP lib c code).1.2 = none ↔
        ∃ cookies, x = .answered cookies none ∧ ∃ ck ∈ cookies, ck.Name = "passbolt_mfa")) ∧
    (verifyTOTP lib c code).2 = [.request c (totpRequest code)] := by
  have hok : ∀ cookies, lib.DoCustomRequest c (totpRequest code) = .ok cookies →
      ((verifyTOTP lib c code).1.2 = none ↔ ∃ ck ∈ cookies, ck.Name = "passbolt_mfa") ∧
      (∀ pre ck post, cookies = pre ++ ck :: post →
          (∀ x ∈ pre, x.Name ≠ "passbolt_mfa") → ck.Name = "passbolt_mfa" →
          (verifyTOTP lib c code).1 = (ck, none)) ∧
      ((∀ ck ∈ cookies, ck.Name ≠ "passbolt_mfa") →
          (verifyTOTP lib c code).1 = (Cookie.zero, some verificationFailed)) := by
    intro cookies h
    have hv := verifyTOTP_ok lib c code cookies h
    refine ⟨?_, ?_, ?_⟩
    · rw [hv]
      cases hf : findMFACookie cookies with
      | none =>
        have hn := (findMFACookie_none_iff cookies).1 hf
        simp only [verificationFailed]
        constructor
        · intro h0; cases h0
        · rintro ⟨ck, hmem, hname⟩; exact absurd hname (hn ck hmem)
      | some ck =>
        simp only [true_iff]
        by_contra hcon
        have hall : ∀ x ∈ cookies, x.Name ≠ "passbolt_mfa" := by
          intro x hx hname; exact hcon ⟨x, hx, hname⟩
        rw [(findMFACookie_none_iff cookies).2 hall] at hf
        cases hf
    · intro pre ck post hc hpre hck
      rw [hv, hc, findMFACookie_first pre post ck hpre hck]
    · intro hall
      rw [hv, (findMFACookie_none_iff cookies).2 hall]
  have herr : ∀ e, lib.DoCustomRequest c (totpRequest code) = .error e →
      (verifyTOTP lib c code).1 = (Cookie.zero, some e) := by
    intro e he
    simp [verifyTOTP, he]
  refine ⟨hok, herr, ?_, verifyTOTP_events lib c code⟩
  intro x hx
  cases x with
  | transportError err =>
    rw [herr err (by rw [hx]; rfl)]
    simp
  | answered cookies apiErr =>
    cases apiErr with
    | some err =>
      rw [herr err (by rw [hx]; rfl)]
      simp
    | none =>
      rw [(hok cookies (by rw [hx]; rfl)).1]
      simp

/-- Instance of C1: three cookies, the second and third named `passbolt_mfa`;
the second one is the token. -/
theorem verifyTOTP_token_iff_marker_cookie_witness :
    (verifyTOTP demoLib demoClient "482913").1 = (mfaCookie, none) :=
  ((verifyTOTP_token_iff_marker_cookie demoLib demoClient "482913").1
      [sessionCookie, mfaCookie, mfaCookieLater] rfl).2.1
    [sessionCookie] mfaCookie [mfaCookieLater] rfl (by decide) rfl

/-- Counterexample to C1 as stated: the answer to the request is received, not a
transport failure, and carries a cookie named `passbolt_mfa`, but the library
reports the answer as an error; `verifyTOTP` returns no token, and the error it
returns is the library's, not the verification failure. -/
theorem verifyTOTP_api_error_counterexample :
    apiErrorLib.DoCustomRequest demoClient (totpRequest "482913")
      = (Exchange.answered [mfaCookie] (some (.lib "Error API JSON Response Status"))).result ∧
    mfaCookie.Name = "passbolt_mfa" ∧
    (verifyTOTP apiErrorLib demoClient "482913").1
      = (Cookie.zero, some (.lib "Error API JSON Response Status")) ∧
    (verifyTOTP apiErrorLib demoClient "482913").1.2 ≠ some verificationFailed := by
  refine ⟨rfl, rfl, rfl, by decide⟩

/-! ## The search filter -/

/-- C2 (as amended): after `searchOnChanged` the filtered view is the sublist of
the resources whose lower-cased name contains the lower-cased query *trimmed of
surrounding white space*, in the original order, and the resource list itself
is unchanged; a query matching nothing gives the empty view; GitHub, Gitea,
Jenkins queried with `git` in any case give GitHub, Gitea. -/
theorem searchOnChanged_trimmed_substring (tbl : Char → Char) (state : uiState)
    (q : String) :
    (searchOnChanged tbl state q).filtered
        = state.resources.filter
            (fun r => Contains (ToLower tbl r.Name) (ToLower tbl (TrimSpace q))) ∧
    (searchOnChanged tbl state q).resources = state.resources ∧
    (∀ r, r ∈ (searchOnChanged tbl state q).filtered ↔
        r ∈ state.resources ∧
          (ToLower tbl (TrimSpace q)).data <:+: (ToLower tbl r.Name).data) ∧
    ((searchOnChanged tbl state q).filtered).Sublist state.resources ∧
    ((∀ r ∈ state.resources,
          ¬ (ToLower tbl (TrimSpace q)).data <:+: (ToLower tbl r.Name).data) →
        (searchOnChanged tbl state q).filtered = []) ∧
    (∀ g ∈ gitQueries, (searchOnChanged tbl demoState g).filtered = [gitHub, gitea]) := by
  have hf := searchOnChanged_filtered tbl state q
  refine ⟨hf, ?_, ?_, ?_, ?_, ?_⟩
  · simp only [searchOnChanged]
    split <;> rfl
  · intro r
    rw [hf, List.mem_filter, Contains_iff]
  · rw [hf]; exact List.filter_sublist _
  · intro hall
    rw [hf, List.filter_eq_nil_iff]
    intro r hr
    rw [Contains_iff]
    exact hall r hr
  · intro g hg
    simp only [gitQueries, List.mem_cons, List.mem_singleton, List.not_mem_nil,
      or_false] at hg
    rcases hg with rfl | rfl | rfl | rfl | rfl | rfl | rfl | rfl <;> rfl

/-- Instance of C2: the query ` GIT ` (with surrounding blanks) on GitHub,
Gitea, Jenkins. -/
theorem searchOnChanged_trimmed_substring_witness :
    (searchOnChanged plainTable demoState " GIT ").filtered = [gitHub, gitea] :=
  (searchOnChanged_trimmed_substring plainTable demoState " GIT ").1.trans (by decide)

/-- Counterexample to C2 as stated: for the query ` git` (leading blank) the
filter shows GitHub and Gitea, although no display name contains ` git` as a
case-insensitive substring. -/
theorem searchOnChanged_untrimmed_counterexample :
    (searchOnChanged plainTable demoState " git").filtered = [gitHub, gitea] ∧
    demoState.resources.filter
        (fun r => Contains (ToLower plainTable r.Name) (ToLower plainTable " git")) = [] := by
  decide

/-- C3: with the empty query `searchOnChanged` sets the filtered view to the
whole resource list, same elements in the same order, and leaves the resource
list unchanged; the initial assignment in `buildUI` does the same. -/
theorem searchOnChanged_empty_query (tbl : Char → Char) (state : uiState) :
    (searchOnChanged tbl state "").filtered = state.resources ∧
    (searchOnChanged tbl state "").resources = state.resources ∧
    (buildUIInit state).filtered = state.resources ∧
    (buildUIInit state).resources = state.resources := by
  refine ⟨?_, ?_, rfl, rfl⟩
  · have h : ToLower tbl (TrimSpace "") = "" := rfl
    simp [searchOnChanged, h]
  · have h : ToLower tbl (TrimSpace "") = "" := rfl
    simp [searchOnChanged, h]

/-! ## Credentials -/

theorem mustGetEnv_eq (env : Env) (key : String) :
    mustGetEnv env key =
      if TrimSpace (Getenv env key) = "" then
        .error (.envRequired key)
      else .ok (TrimSpace (Getenv env key)) := rfl

/-- C4 (as amended): with server URL and passphrase non-blank, the outcome of
`loadCredentials` is decided by the two key variables, every case covered. With
`PASSBOLT_PRIVATE_KEY` non-empty it succeeds with that key, whatever the key
file variable holds. With `PASSBOLT_PRIVATE_KEY` unset or empty: it fails
fatally when `PASSBOLT_PRIVATE_KEY_FILE` is unset or blank (both unset
included); otherwise it succeeds with the file's contents when the named file
can be read and fails fatally when it cannot. -/
theorem loadCredentials_key_sources (env : Env) (fs : FileSystem)
    (hurl : TrimSpace (Getenv env "PASSBOLT_URL") ≠ "")
    (hpw : TrimSpace (Getenv env "PASSBOLT_PASSPHRASE") ≠ "") :
    (env "PASSBOLT_PRIVATE_KEY" = none → env "PASSBOLT_PRIVATE_KEY_FILE" = none →
        loadCredentials env fs = .error (.envRequired "PASSBOLT_PRIVATE_KEY_FILE")) ∧
    (Getenv env "PASSBOLT_PRIVATE_KEY" = "" →
        TrimSpace (Getenv env "PASSBOLT_PRIVATE_KEY_FILE") = "" →
        loadCredentials env fs = .error (.envRequired "PASSBOLT_PRIVATE_KEY_FILE")) ∧
    (Getenv env "PASSBOLT_PRIVATE_KEY" ≠ "" →
        loadCredentials env fs =
          .ok ⟨TrimSpace (Getenv env "PASSBOLT_URL"), Getenv env "PASSBOLT_PRIVATE_KEY",
            TrimSpace (Getenv env "PASSBOLT_PASSPHRASE"), Getenv env "PASSBOLT_TOTP_SECRET"⟩) ∧
    (Getenv env "PASSBOLT_PRIVATE_KEY" = "" →
        TrimSpace (Getenv env "PASSBOLT_PRIVATE_KEY_FILE") ≠ "" →
        ∀ b, fs (TrimSpace (Getenv env "PASSBOLT_PRIVATE_KEY_FILE")) = .ok b →
          loadCredentials env fs =
            .ok ⟨TrimSpace (Getenv env "PASSBOLT_URL"), b,
              TrimSpace (Getenv env "PASSBOLT_PASSPHRASE"),
              Getenv env "PASSBOLT_TOTP_SECRET"⟩) ∧
    (Getenv env "PASSBOLT_PRIVATE_KEY" = "" →
        TrimSpace (Getenv env "PASSBOLT_PRIVATE_KEY_FILE") ≠ "" →
        ∀ e, fs (TrimSpace (Getenv env "PASSBOLT_PRIVATE_KEY_FILE")) = .error e →
          loadCredentials env fs = .error (.readKeyFile e)) ∧
    ((∃ cr, loadCredentials env fs = .ok cr) ↔
        (Getenv env "PASSBOLT_PRIVATE_KEY" ≠ "" ∨
          (TrimSpace (Getenv env "PASSBOLT_PRIVATE_KEY_FILE") ≠ "" ∧
            ∃ b, fs (TrimSpace (Getenv env "PASSBOLT_PRIVATE_KEY_FILE")) = .ok b))) := by
  have hblank : Getenv env "PASSBOLT_PRIVATE_KEY" = "" →
      TrimSpace (Getenv env "PASSBOLT_PRIVATE_KEY_FILE") = "" →
      loadCredentials env fs = .error (.envRequired "PASSBOLT_PRIVATE_KEY_FILE") := by
    intro hk hf
    simp [loadCredentials, mustGetEnv_eq, hurl, hpw, hk, hf]
  have hkey : Getenv env "PASSBOLT_PRIVATE_KEY" ≠ "" →
      loadCredentials env fs =
        .ok ⟨TrimSpace (Getenv env "PASSBOLT_URL"), Getenv env "PASSBOLT_PRIVATE_KEY",
          TrimSpace (Getenv env "PASSBOLT_PASSPHRASE"), Getenv env "PASSBOLT_TOTP_SECRET"⟩ := by
    intro hk
    simp [loadCredentials, mustGetEnv_eq, hurl, hpw, hk]
  have hread : Getenv env "PASSBOLT_PRIVATE_KEY" = "" →
      TrimSpace (Getenv env "PASSBOLT_PRIVATE_KEY_FILE") ≠ "" →
      ∀ b, fs (TrimSpace (Getenv env "PASSBOLT_PRIVATE_KEY_FILE")) = .ok b →
        loadCredentials env fs =
          .ok ⟨TrimSpace (Getenv env "PASSBOLT_URL"), b,
            TrimSpace (Getenv env "PASSBOLT_PASSPHRASE"),
            Getenv env "PASSBOLT_TOTP_SECRET"⟩ := by
    intro hk hf b hb
    simp [loadCredentials, mustGetEnv_eq, hurl, hpw, hk, hf, hb]
  have hunread : Getenv env "PASSBOLT_PRIVATE_KEY" = "" →
      TrimSpace (Getenv env "PASSBOLT_PRIVATE_KEY_FILE") ≠ "" →
      ∀ e, fs (TrimSpace (Getenv env "PASSBOLT_PRIVATE_KEY_FILE")) = .error e →
        loadCredentials env fs = .error (.readKeyFile e) := by
    intro hk hf e he
    simp [loadCredentials, mustGetEnv_eq, hurl, hpw, hk, hf, he]
  refine ⟨?_, hblank, hkey, hread, hunread, ?_⟩
  · intro hk hf
    have hk0 : Getenv env "PASSBOLT_PRIVATE_KEY" = "" := by simp [Getenv, hk]
    have hf0 : TrimSpace (Getenv env "PASSBOLT_PRIVATE_KEY_FILE") = "" := by
      simp only [Getenv, hf]; rfl
    exact hblank hk0 hf0
  · by_cases hk : Getenv env "PASSBOLT_PRIVATE_KEY" = ""
    · by_cases hf : TrimSpace (Getenv env "PASSBOLT_PRIVATE_KEY_FILE") = ""
      · rw [hblank hk hf]; simp [hk, hf]
      · cases hr : fs (TrimSpace (Getenv env "PASSBOLT_PRIVATE_KEY_FILE")) with
        | error e => rw [hunread hk hf e hr]; simp [hk]
        | ok b => rw [hread hk hf b hr]; simp [hk, hf]
    · rw [hkey hk]; simp [hk]

/-- Instance of C4: the private key given directly, no key file variable. -/
theorem loadCredentials_key_sources_witness :
    loadCredentials envDirectKey noFiles = .ok ⟨"https://passbolt.example", "KEY", "pw", ""⟩ :=
  (loadCredentials_key_sources envDirectKey noFiles (by decide) (by decide)).2.2.1 (by decide)

/-- Counterexample to C4 as stated, in two environments with server URL and
passphrase present. In the first only `PASSBOLT_PRIVATE_KEY_FILE` is set, and
`loadCredentials` fails fatally because the named file cannot be read. In the
second only `PASSBOLT_PRIVATE_KEY` is set, to the empty string, and
`loadCredentials` fails fatally asking for `PASSBOLT_PRIVATE_KEY_FILE`. -/
theorem loadCredentials_unreadable_file_counterexample :
    envKeyFile "/keys/missing.asc" "PASSBOLT_URL" = some "https://passbolt.example" ∧
    envKeyFile "/keys/missing.asc" "PASSBOLT_PASSPHRASE" = some "pw" ∧
    envKeyFile "/keys/missing.asc" "PASSBOLT_PRIVATE_KEY" = none ∧
    envKeyFile "/keys/missing.asc" "PASSBOLT_PRIVATE_KEY_FILE" = some "/keys/missing.asc" ∧
    loadCredentials (envKeyFile "/keys/missing.asc") noFiles
      = .error (.readKeyFile (.lib "open: no such file or directory")) ∧
    envEmptyKey "PASSBOLT_PRIVATE_KEY" = some "" ∧
    envEmptyKey "PASSBOLT_PRIVATE_KEY_FILE" = none ∧
    loadCredentials envEmptyKey noFiles
      = .error (.envRequired "PASSBOLT_PRIVATE_KEY_FILE") := by
  refine ⟨by decide, by decide, by decide, by decide, rfl, by decide, by decide, rfl⟩

/-- C5 (as amended): `loadCredentials` fails fatally exactly when the server
URL is blank, or the passphrase is blank, or `PASSBOLT_PRIVATE_KEY` is empty and
the key file path is blank or the file unreadable; whenever it returns, the
server address and the passphrase are the trimmed, non-empty environment
values, and the private key is either the non-empty `PASSBOLT_PRIVATE_KEY` or
the contents of the key file exactly as read. -/
theorem loadCredentials_returned_values (env : Env) (fs : FileSystem) :
    ((∃ f, loadCredentials env fs = .error f) ↔
        (TrimSpace (Getenv env "PASSBOLT_URL") = "" ∨
          TrimSpace (Getenv env "PASSBOLT_PASSPHRASE") = "" ∨
          (Getenv env "PASSBOLT_PRIVATE_KEY" = "" ∧
            (TrimSpace (Getenv env "PASSBOLT_PRIVATE_KEY_FILE") = "" ∨
              ∃ e, fs (TrimSpace (Getenv env "PASSBOLT_PRIVATE_KEY_FILE")) = .error e)))) ∧
    (∀ cr, loadCredentials env fs = .ok cr →
        cr.serverURL = TrimSpace (Getenv env "PASSBOLT_URL") ∧ cr.serverURL ≠ "" ∧
        cr.passphrase = TrimSpace (Getenv env "PASSBOLT_PASSPHRASE") ∧ cr.passphrase ≠ "" ∧
        cr.totpSecret = Getenv env "PASSBOLT_TOTP_SECRET" ∧
        ((cr.privKey = Getenv env "PASSBOLT_PRIVATE_KEY" ∧ cr.privKey ≠ "") ∨
          (Getenv env "PASSBOLT_PRIVATE_KEY" = "" ∧
            TrimSpace (Getenv env "PASSBOLT_PRIVATE_KEY_FILE") ≠ "" ∧
            fs (TrimSpace (Getenv env "PASSBOLT_PRIVATE_KEY_FILE")) = .ok cr.privKey))) := by
  by_cases hurl : TrimSpace (Getenv env "PASSBOLT_URL") = ""
  · simp [loadCredentials, mustGetEnv_eq, hurl]
  by_cases hpw : TrimSpace (Getenv env "PASSBOLT_PASSPHRASE") = ""
  · simp [loadCredentials, mustGetEnv_eq, hurl, hpw]
  by_cases hk : Getenv env "PASSBOLT_PRIVATE_KEY" = ""
  · by_cases hf : TrimSpace (Getenv env "PASSBOLT_PRIVATE_KEY_FILE") = ""
    · simp [loadCredentials, mustGetEnv_eq, hurl, hpw, hk, hf]
    · cases hr : fs (TrimSpace (Getenv env "PASSBOLT_PRIVATE_KEY_FILE")) with
      | error e => simp [loadCredentials, mustGetEnv_eq, hurl, hpw, hk, hf, hr]
      | ok b =>
        have hl : loadCredentials env fs =
            .ok ⟨TrimSpace (Getenv env "PASSBOLT_URL"), b,
              TrimSpace (Getenv env "PASSBOLT_PASSPHRASE"),
              Getenv env "PASSBOLT_TOTP_SECRET"⟩ := by
          simp [loadCredentials, mustGetEnv_eq, hurl, hpw, hk, hf, hr]
        rw [hl]
        refine ⟨?_, ?_⟩
        · simp [hurl, hpw, hk, hf, hr]
        · intro cr hcr
          simp only [Except.ok.injEq] at hcr
          subst hcr
          simp [hurl, hpw, hk, hf, hr]
  · have hl : loadCredentials env fs =
        .ok ⟨TrimSpace (Getenv env "PASSBOLT_URL"), Getenv env "PASSBOLT_PRIVATE_KEY",
          TrimSpace (Getenv env "PASSBOLT_PASSPHRASE"),
          Getenv env "PASSBOLT_TOTP_SECRET"⟩ := by
      simp [loadCredentials, mustGetEnv_eq, hurl, hpw, hk]
    rw [hl]
    refine ⟨?_, ?_⟩
    · simp [hurl, hpw, hk]
    · intro cr hcr
      simp only [Except.ok.injEq] at hcr
      subst hcr
      simp [hurl, hpw, hk]

/-- Instance of C5: the credentials returned for a directly given key. -/
theorem loadCredentials_returned_values_witness :
    loadCredentials envDirectKey noFiles = .ok demoCredentials ∧
    demoCredentials.serverURL ≠ "" ∧ demoCredentials.passphrase ≠ "" :=
  have h := (loadCredentials_returned_values envDirectKey noFiles).2 demoCredentials rfl
  ⟨rfl, h.2.1, h.2.2.2.1⟩

/-- Counterexample to C5 as stated: with `PASSBOLT_PRIVATE_KEY` unset and
`PASSBOLT_PRIVATE_KEY_FILE` naming a readable, empty file, `loadCredentials`
returns, and the private key it returns is the empty string. -/
theorem loadCredentials_empty_key_counterexample :
    loadCredentials (envKeyFile "/keys/empty.asc") emptyKeyFile
        = .ok ⟨"https://passbolt.example", "", "pw", ""⟩ ∧
    (⟨"https://passbolt.example", "", "pw", ""⟩ : Credentials).privKey = "" :=
  ⟨rfl, rfl⟩

/-! ## MFA selection -/

/-- C6: `configureMFA` assigns the client's callback field exactly once and
touches nothing else. For a non-empty shared secret the callback stored is the
automatic closure that captured exactly that secret: calling it runs
`totp.GenerateCode` on that secret and the time of the call, and gives what the
body of `autoTOTPCallback` gives for that secret. For the empty secret the
callback stored is the interactive closure of the given app: calling it runs
the prompt hand-off. The two are different callbacks. -/
theorem configureMFA_installs_one_strategy (c : Client) (totpSecret : String) (app : App) :
    (totpSecret ≠ "" →
        configureMFA c totpSecret app =
          ({ c with MFACallback := some (.auto totpSecret) },
            [.setMFACallback (.auto totpSecret)])) ∧
    (totpSecret = "" →
        configureMFA c totpSecret app =
          ({ c with MFACallback := some (.interactive app) },
            [.setMFACallback (.interactive app)])) ∧
    (∃ fn, (configureMFA c totpSecret app).1 = { c with MFACallback := some fn } ∧
        (configureMFA c totpSecret app).2 = [.setMFACallback fn] ∧
        (fn = autoTOTPCallback totpSecret ∨ fn = interactiveMFACallback app)) ∧
    autoTOTPCallback totpSecret = .auto totpSecret ∧
    interactiveMFACallback app = .interactive app ∧
    autoTOTPCallback totpSecret ≠ interactiveMFACallback app ∧
    (totpSecret ≠ "" → ∀ (lib : Lib) (now : Time) (steps : List Step) (cl : Client),
        ∃ fn, (configureMFA c totpSecret app).1.MFACallback = some fn ∧
          fn.call lib now steps cl
            = (some (autoTOTPCall lib now totpSecret cl).1,
                (autoTOTPCall lib now totpSecret cl).2) ∧
          (fn.call lib now steps cl).2.head? = some (.generateCode totpSecret now)) ∧
    (totpSecret = "" → ∀ (lib : Lib) (now : Time) (steps : List Step) (cl : Client),
        ∃ fn, (configureMFA c totpSecret app).1.MFACallback = some fn ∧
          (fn.call lib now steps cl).2 = (run lib cl Handoff.init steps).calls ∧
          (∀ r, (fn.call lib now steps cl).1 = some r ↔
            (run lib cl Handoff.init steps).bg = .returned r)) := by
  refine ⟨?_, ?_, ?_, rfl, rfl, ?_, ?_, ?_⟩
  · intro h; simp [configureMFA, h, autoTOTPCallback]
  · intro h; simp [configureMFA, h, interactiveMFACallback]
  · by_cases h : totpSecret = ""
    · exact ⟨interactiveMFACallback app, by simp [configureMFA, h], by simp [configureMFA, h],
        Or.inr rfl⟩
    · exact ⟨autoTOTPCallback totpSecret, by simp [configureMFA, h], by simp [configureMFA, h],
        Or.inl rfl⟩
  · simp [autoTOTPCallback, interactiveMFACallback]
  · intro h lib now steps cl
    refine ⟨.auto totpSecret, by simp [configureMFA, h, autoTOTPCallback], rfl, ?_⟩
    simp only [MFACallbackFn.call, autoTOTPCall]
    cases lib.GenerateCode totpSecret now <;> rfl
  · intro h lib now steps cl
    refine ⟨.interactive app, by simp [configureMFA, h, interactiveMFACallback], ?_, ?_⟩
    · simp only [MFACallbackFn.call]
      split <;> rfl
    · intro r
      simp only [MFACallbackFn.call]
      split
      · rename_i r0 hr0
        rw [hr0]
        simp
      · rename_i hne
        constructor
        · intro h0; cases h0
        · intro h1; exact absurd h1 (hne r)

/-- Instance of C6: a secret is present; the callback stored is the automatic
closure of that very secret. -/
theorem configureMFA_installs_one_strategy_witness :
    configureMFA demoClient "JBSWY3DPEHPK3PXP" demoApp =
      ({ demoClient with MFACallback := some (.auto "JBSWY3DPEHPK3PXP") },
        [.setMFACallback (.auto "JBSWY3DPEHPK3PXP")]) :=
  (configureMFA_installs_one_strategy demoClient "JBSWY3DPEHPK3PXP" demoApp).1 (by decide)

/-! ## Client construction and login -/

theorem configureMFA_fst (c : Client) (totpSecret : String) (app : App) :
    ∃ fn, configureMFA c totpSecret app =
      ({ c with MFACallback := some fn }, [.setMFACallback fn]) := by
  by_cases h : totpSecret = ""
  · exact ⟨interactiveMFACallback app, by simp [configureMFA, h]⟩
  · exact ⟨autoTOTPCallback totpSecret, by simp [configureMFA, h]⟩

/-- C7: in `newClient`, when `loadCredentials` ends the process nothing is
called; when client construction fails the result is a nil client with the
wrapped construction error and the only call made is the constructor (no
callback installation, no login, no request); when construction succeeds the
calls are, in this order, the constructor, the installation of a callback
`fn`, and `Login` on the constructed client carrying `fn`; hence every login
in the call sequence is preceded by a callback installation, itself preceded
by a successful construction. -/
theorem newClient_login_after_callback (env : Env) (fs : FileSystem) (lib : Lib) (app : App) :
    (∀ f, loadCredentials env fs = .error f → newClient env fs lib app = (.error f, [])) ∧
    (∀ cr e, loadCredentials env fs = .ok cr →
        lib.NewClient cr.serverURL cr.privKey cr.passphrase = .error e →
        newClient env fs lib app =
          (.ok (none, some (.wrap "new client" e)),
            [.newClient cr.serverURL cr.privKey cr.passphrase])) ∧
    (∀ cr client, loadCredentials env fs = .ok cr →
        lib.NewClient cr.serverURL cr.privKey cr.passphrase = .ok client →
        ∃ fn,
          (configureMFA client cr.totpSecret app).1 = { client with MFACallback := some fn } ∧
          (newClient env fs lib app).2 =
            [.newClient cr.serverURL cr.privKey cr.passphrase, .setMFACallback fn,
              .login { client with MFACallback := some fn }] ∧
          (newClient env fs lib app).1 =
            .ok (match lib.Login { client with MFACallback := some fn } with
              | some err => (none, some err)
              | none => (some { client with MFACallback := some fn }, none))) ∧
    (∀ i c, (newClient env fs lib app).2.get? i = some (.login c) →
        ∃ j k fn url key pw client, k < j ∧ j < i ∧
          (newClient env fs lib app).2.get? k = some (.newClient url key pw) ∧
          lib.NewClient url key pw = .ok client ∧
          (newClient env fs lib app).2.get? j = some (.setMFACallback fn) ∧
          c = { client with MFACallback := some fn }) := by
  have h1 : ∀ f, loadCredentials env fs = .error f →
      newClient env fs lib app = (.error f, []) := by
    intro f hf; simp [newClient, hf]
  have h2 : ∀ cr e, loadCredentials env fs = .ok cr →
      lib.NewClient cr.serverURL cr.privKey cr.passphrase = .error e →
      newClient env fs lib app =
        (.ok (none, some (.wrap "new client" e)),
          [.newClient cr.serverURL cr.privKey cr.passphrase]) := by
    intro cr e hcr he; simp [newClient, hcr, he]
  have h3 : ∀ cr client, loadCredentials env fs = .ok cr →
      lib.NewClient cr.serverURL cr.privKey cr.passphrase = .ok client →
      ∃ fn, (configureMFA client cr.totpSecret app).1 = { client with MFACallback := some fn } ∧
        (newClient env fs lib app).2 =
          [.newClient cr.serverURL cr.privKey cr.passphrase, .setMFACallback fn,
            .login { client with MFACallback := some fn }] ∧
        (newClient env fs lib app).1 =
          .ok (match lib.Login { client with MFACallback := some fn } with
            | some err => (none, some err)
            | none => (some { client with MFACallback := some fn }, none)) := by
    intro cr client hcr hc
    obtain ⟨fn, hfn⟩ := configureMFA_fst client cr.totpSecret app
    refine ⟨fn, by rw [hfn], ?_, ?_⟩
    · simp only [newClient, hcr, hc, hfn]
      cases lib.Login { client with MFACallback := some fn } <;> rfl
    · simp only [newClient, hcr, hc, hfn]
      cases lib.Login { client with MFACallback := some fn } <;> rfl
  refine ⟨h1, h2, h3, ?_⟩
  intro i c hi
  cases hcr : loadCredentials env fs with
  | error f =>
    rw [h1 f hcr] at hi
    simp at hi
  | ok cr =>
    cases hc : lib.NewClient cr.serverURL cr.privKey cr.passphrase with
    | error e =>
      rw [h2 cr e hcr hc] at hi
      match i, hi with
      | 0, hi => simp at hi
      | (n + 1), hi => simp at hi
    | ok client =>
      obtain ⟨fn, _, htr, _⟩ := h3 cr client hcr hc
      rw [htr] at hi ⊢
      match i, hi with
      | 0, hi => simp at hi
      | 1, hi => simp at hi
      | 2, hi =>
        simp only [List.get?_cons_succ, List.get?_cons_zero, Option.some.injEq,
          Event.login.injEq] at hi
        exact ⟨1, 0, fn, cr.serverURL, cr.privKey, cr.passphrase, client, by decide,
          by decide, rfl, hc, rfl, hi.symm⟩
      | (n + 3), hi => simp at hi

/-- Instance of C7: credentials load, construction succeeds, and the calls are
constructor, callback installation, login. -/
theorem newClient_login_after_callback_witness :
    (newClient envWithSecret noFiles demoLib demoApp).2 =
      [.newClient "https://passbolt.example" "KEY" "pw",
        .setMFACallback (.auto "JBSWY3DPEHPK3PXP"),
        .login ⟨"https://passbolt.example", "KEY", "pw", some (.auto "JBSWY3DPEHPK3PXP")⟩] := by
  obtain ⟨fn, hfn, htr, _⟩ :=
    (newClient_login_after_callback envWithSecret noFiles demoLib demoApp).2.2.1
      ⟨"https://passbolt.example", "KEY", "pw", "JBSWY3DPEHPK3PXP"⟩
      ⟨"https://passbolt.example", "KEY", "pw", none⟩ rfl rfl
  rw [htr]
  have : fn = .auto "JBSWY3DPEHPK3PXP" := by
    have h : (configureMFA ⟨"https://passbolt.example", "KEY", "pw", none⟩
        "JBSWY3DPEHPK3PXP" demoApp).1.MFACallback = some fn := by rw [hfn]
    exact (Option.some.inj h).symm
  rw [this]

/-! ## The automatic callback -/

/-- C8: the automatic callback generates a code once and then submits it once,
with no retry. When generation fails its error is returned as is, with the zero
cookie, and no request is made. When generation succeeds the code is submitted
in a single request and the outcome of that submission is the result: a
library error of the request is returned unchanged with the zero cookie; an
answer without the marker cookie gives the verification-failure error with the
zero cookie; an answer with the marker cookie gives the first such cookie and a
nil error. In every case the result is the one `verifyTOTP` gives. -/
theorem autoTOTPCall_sequences_generate_then_verify (lib : Lib) (now : Time)
    (secret : String) (c : Client) :
    (∀ e, lib.GenerateCode secret now = .error e →
        autoTOTPCall lib now secret c
          = ((Cookie.zero, some e), [.generateCode secret now])) ∧
    (∀ code, lib.GenerateCode secret now = .ok code →
        (autoTOTPCall lib now secret c).1 = (verifyTOTP lib c code).1 ∧
        (autoTOTPCall lib now secret c).2
          = [.generateCode secret now, .request c (totpRequest code)]) ∧
    (∀ code e, lib.GenerateCode secret now = .ok code →
        lib.DoCustomRequest c (totpRequest code) = .error e →
        autoTOTPCall lib now secret c
          = ((Cookie.zero, some e),
              [.generateCode secret now, .request c (totpRequest code)])) ∧
    (∀ code cookies, lib.GenerateCode secret now = .ok code →
        lib.DoCustomRequest c (totpRequest code) = .ok cookies →
        (∀ ck ∈ cookies, ck.Name ≠ "passbolt_mfa") →
        autoTOTPCall lib now secret c
          = ((Cookie.zero, some verificationFailed),
              [.generateCode secret now, .request c (totpRequest code)])) ∧
    (∀ code pre ck post, lib.GenerateCode secret now = .ok code →
        lib.DoCustomRequest c (totpRequest code) = .ok (pre ++ ck :: post) →
        (∀ x ∈ pre, x.Name ≠ "passbolt_mfa") → ck.Name = "passbolt_mfa" →
        autoTOTPCall lib now secret c
          = ((ck, none), [.generateCode secret now, .request c (totpRequest code)])) ∧
    ((∃ e, lib.GenerateCode secret now = .error e) →
        countRequests (autoTOTPCall lib now secret c).2 = 0) ∧
    countRequests (autoTOTPCall lib now secret c).2 ≤ 1 := by
  have hv := verifyTOTP_events lib c
  have hpair : ∀ code, lib.GenerateCode secret now = .ok code →
      autoTOTPCall lib now secret c
        = ((verifyTOTP lib c code).1,
            [.generateCode secret now, .request c (totpRequest code)]) := by
    intro code hc
    simp [autoTOTPCall, hc, hv]
  refine ⟨?_, ?_, ?_, ?_, ?_, ?_, ?_⟩
  · intro e he; simp [autoTOTPCall, he]
  · intro code hc; simp [autoTOTPCall, hc, hv]
  · intro code e hc he
    rw [hpair code hc]
    simp [verifyTOTP, he]
  · intro code cookies hc hk hall
    rw [hpair code hc, verifyTOTP_ok lib c code cookies hk,
      (findMFACookie_none_iff cookies).2 hall]
  · intro code pre ck post hc hk hpre hck
    rw [hpair code hc, verifyTOTP_ok lib c code _ hk, findMFACookie_first pre post ck hpre hck]
  · rintro ⟨e, he⟩; simp [autoTOTPCall, he, countRequests]
  · cases hg : lib.GenerateCode secret now with
    | error e => simp [autoTOTPCall, hg, countRequests]
    | ok code => simp [autoTOTPCall, hg, hv, countRequests]

/-- Instance of C8: when generation fails its error comes back and nothing is
sent; when generation succeeds and the submission fails, the submission's error
comes back after the one request. -/
theorem autoTOTPCall_sequences_generate_then_verify_witness :
    autoTOTPCall rejectingLib 0 "not base32" demoClient
      = ((Cookie.zero, some (.lib "decoding of secret as base32 failed")),
          [.generateCode "not base32" 0]) ∧
    autoTOTPCall apiErrorLib 0 "JBSWY3DPEHPK3PXP" demoClient
      = ((Cookie.zero, some (.lib "Error API JSON Response Status")),
          [.generateCode "JBSWY3DPEHPK3PXP" 0,
            .request demoClient (totpRequest "482913")]) :=
  ⟨(autoTOTPCall_sequences_generate_then_verify rejectingLib 0 "not base32" demoClient).1
      (.lib "decoding of secret as base32 failed") rfl,
    (autoTOTPCall_sequences_generate_then_verify apiErrorLib 0 "JBSWY3DPEHPK3PXP"
      demoClient).2.2.1 "482913" (.lib "Error API JSON Response Status") rfl rfl⟩

/-! ## The interactive callback -/

theorem Inv_init (lib : Lib) (c : Client) : Handoff.Inv lib c Handoff.init := by
  simp [Handoff.Inv, Handoff.init]

theorem Inv_step (lib : Lib) (c : Client) (s : Handoff) (st : Step)
    (h : Handoff.Inv lib c s) : Handoff.Inv lib c (step lib c s st) := by
  obtain ⟨bg, win, txt, snd, sends, recvs, calls⟩ := s
  cases st with
  | runQueued =>
    simp only [step]
    split
    · cases bg <;> simp_all [Handoff.Inv]
    · exact h
  | edit text =>
    simp only [step]
    split
    · cases bg <;> simp_all [Handoff.Inv]
    · exact h
  | okHandler =>
    simp only [step]
    split
    · cases bg <;> simp_all [Handoff.Inv, okTapped]
    · exact h
  | closeWindow =>
    simp only [step]
    split
    · cases bg <;> simp_all [Handoff.Inv]
    · exact h
  | background =>
    cases bg with
    | queued => cases snd <;> simp_all [Handoff.Inv, step, backgroundStep]
    | receiving => simpa [step, backgroundStep] using h
    | received code =>
      simp only [Handoff.Inv] at h
      obtain ⟨h1, h2, h3, h4, h5⟩ := h
      simp only [step, backgroundStep, Handoff.Inv]
      exact ⟨h1, h2, h4, h5, code, rfl, by rw [h3, verifyTOTP_events]; rfl⟩
    | returned r => simpa [step, backgroundStep] using h

theorem Inv_run (lib : Lib) (c : Client) (steps : List Step) (s : Handoff)
    (h : Handoff.Inv lib c s) : Handoff.Inv lib c (run lib c s steps) := by
  induction steps generalizing s with
  | nil => exact h
  | cons st steps ih => exact ih _ (Inv_step lib c s st h)

theorem run_append (lib : Lib) (c : Client) (s : Handoff) (xs ys : List Step) :
    run lib c s (xs ++ ys) = run lib c (run lib c s xs) ys := by
  simp [run, List.foldl_append]

theorem Confirmed_step (lib : Lib) (c : Client) (code : String) (s : Handoff) (st : Step)
    (h : Handoff.Confirmed lib c code s) :
    Handoff.Confirmed lib c code (step lib c s st) := by
  obtain ⟨bg, win, txt, snd, sends, recvs, calls⟩ := s
  rcases h with ⟨hb, hs, hc⟩ | ⟨hb, hc⟩ | ⟨hb, hc⟩
  · simp only at hb hs hc
    subst hb hs hc
    cases st <;> simp [step, backgroundStep, Handoff.Confirmed]
  · simp only at hb hc
    subst hb hc
    cases st with
    | runQueued => simp only [step]; split <;> simp [Handoff.Confirmed]
    | edit text => simp only [step]; split <;> simp [Handoff.Confirmed]
    | okHandler => simp only [step]; split <;> simp [Handoff.Confirmed, okTapped]
    | closeWindow => simp only [step]; split <;> simp [Handoff.Confirmed]
    | background =>
      simp only [step, backgroundStep, Handoff.Confirmed]
      right; right
      simp [verifyTOTP_events]
  · simp only at hb hc
    subst hb hc
    cases st with
    | runQueued => simp only [step]; split <;> simp [Handoff.Confirmed]
    | edit text => simp only [step]; split <;> simp [Handoff.Confirmed]
    | okHandler => simp only [step]; split <;> simp [Handoff.Confirmed, okTapped]
    | closeWindow => simp only [step]; split <;> simp [Handoff.Confirmed]
    | background => simp [step, backgroundStep, Handoff.Confirmed]

theorem Confirmed_run (lib : Lib) (c : Client) (code : String) (steps : List Step)
    (s : Handoff) (h : Handoff.Confirmed lib c code s) :
    Handoff.Confirmed lib c code (run lib c s steps) := by
  induction steps generalizing s with
  | nil => exact h
  | cons st steps ih => exact ih _ (Confirmed_step lib c code s st h)

theorem Confirmed_of_okHandler (lib : Lib) (c : Client) (s : Handoff)
    (hinv : Handoff.Inv lib c s) (hwin : s.win = .shown) (hfree : s.sending = none) :
    Handoff.Confirmed lib c (TrimSpace s.entryText) (step lib c s .okHandler) := by
  obtain ⟨bg, win, txt, snd, sends, recvs, calls⟩ := s
  simp only at hwin hfree
  subst hwin hfree
  cases bg <;> simp_all [Handoff.Inv, Handoff.Confirmed, step, okTapped]

theorem Confirmed_returns (lib : Lib) (c : Client) (code : String) (s : Handoff)
    (h : Handoff.Confirmed lib c code s) :
    (run lib c s [.background, .background]).bg = .returned (verifyTOTP lib c code).1 := by
  obtain ⟨bg, win, txt, snd, sends, recvs, calls⟩ := s
  rcases h with ⟨hb, hs, hc⟩ | ⟨hb, hc⟩ | ⟨hb, hc⟩
  · simp only at hb hs hc
    subst hb hs hc
    simp [run, step, backgroundStep]
  · simp only at hb hc
    subst hb hc
    simp [run, step, backgroundStep]
  · simp only at hb hc
    subst hb hc
    simp [run, step, backgroundStep]

theorem Inv_counts (lib : Lib) (c : Client) (s : Handoff) (h : Handoff.Inv lib c s) :
    s.sends ≤ 1 ∧ s.recvs ≤ 1 ∧ s.sends = s.recvs ∧
    (∀ v, s.sending = some v → s.bg = .queued) ∧
    (s.win = .shown → ∀ r, s.bg ≠ .returned r) ∧
    (s.recvs = 1 → s.win = .closed ∧ s.sending = none) := by
  obtain ⟨bg, win, txt, snd, sends, recvs, calls⟩ := s
  cases bg <;> simp_all [Handoff.Inv]

/-- C9: when the `okBtn` handler is invoked on the shown prompt while the entry
holds `text`, the callback has not returned before that moment; from then on,
whatever else happens, it can only return the result of `verifyTOTP` on
`TrimSpace text`, having sent exactly one request, whose code is
`TrimSpace text`; and it does return that result once the background goroutine
has taken two more steps. `TrimSpace text` is `text` without a leading and a
trailing run of white space, and neither starts nor ends with white space. The
code `482913` with or without surrounding white space is trimmed to `482913`. -/
theorem interactive_submits_trimmed_entry (lib : Lib) (c : Client) (pre post : List Step)
    (text : String)
    (hwin : (run lib c Handoff.init pre).win = .shown)
    (hfree : (run lib c Handoff.init pre).sending = none)
    (htext : (run lib c Handoff.init pre).entryText = text) :
    (∀ r, (run lib c Handoff.init pre).bg ≠ .returned r) ∧
    (∀ r, (run lib c Handoff.init (pre ++ .okHandler :: post)).bg = .returned r →
        r = (verifyTOTP lib c (TrimSpace text)).1 ∧
        (run lib c Handoff.init (pre ++ .okHandler :: post)).calls
          = [.request c (totpRequest (TrimSpace text))]) ∧
    (run lib c Handoff.init (pre ++ .okHandler :: post ++ [.background, .background])).bg
        = .returned (verifyTOTP lib c (TrimSpace text)).1 ∧
    (run lib c Handoff.init (pre ++ .okHandler :: post ++ [.background, .background])).calls
        = [.request c (totpRequest (TrimSpace text))] ∧
    (totpRequest (TrimSpace text)).totp = TrimSpace text ∧
    (∃ l r, text.data = l ++ (TrimSpace text).data ++ r ∧
      (∀ x ∈ l, isSpace x = true) ∧ (∀ x ∈ r, isSpace x = true)) ∧
    (∀ x, (TrimSpace text).data.head? = some x → isSpace x = false) ∧
    (∀ x, (TrimSpace text).data.getLast? = some x → isSpace x = false) ∧
    (∀ t ∈ paddedCodes, TrimSpace t = "482913") := by
  have hinv := Inv_run lib c pre Handoff.init (Inv_init lib c)
  have hconf0 := Confirmed_of_okHandler lib c _ hinv hwin hfree
  rw [htext] at hconf0
  have hconf : Handoff.Confirmed lib c (TrimSpace text)
      (run lib c Handoff.init (pre ++ .okHandler :: post)) := by
    rw [run_append]
    exact Confirmed_run lib c _ post _ hconf0
  have hret := Confirmed_returns lib c _ _ hconf
  have hconf2 := Confirmed_run lib c _ [.background, .background] _ hconf
  rw [← run_append] at hret hconf2
  have happ : pre ++ .okHandler :: post ++ [Step.background, Step.background]
      = (pre ++ .okHandler :: post) ++ [Step.background, Step.background] := by simp
  refine ⟨(Inv_counts lib c _ hinv).2.2.2.2.1 hwin, ?_, ?_, ?_, rfl,
    (TrimSpace_spec text).1, (TrimSpace_spec text).2.1, (TrimSpace_spec text).2.2, by decide⟩
  · intro r hr
    rcases hconf with ⟨hb, _, _⟩ | ⟨hb, _⟩ | ⟨hb, hc⟩
    · rw [hb] at hr; cases hr
    · rw [hb] at hr; cases hr
    · rw [hb] at hr
      exact ⟨(Background.returned.inj hr).symm, hc⟩
  · rw [happ]; exact hret
  · rw [happ]
    rcases hconf2 with ⟨hb, _, _⟩ | ⟨hb, _⟩ | ⟨_, hc⟩
    · rw [hb] at hret; cases hret
    · rw [hb] at hret; cases hret
    · exact hc

/-- Instance of C9: the entry holds `482913` followed by a blank when the user
confirms; the only request made carries `482913`. -/
theorem interactive_submits_trimmed_entry_witness :
    (run demoLib demoClient Handoff.init
        (promptFilled ++ .okHandler :: [] ++ [.background, .background])).calls
      = [.request demoClient (totpRequest "482913")] :=
  (interactive_submits_trimmed_entry demoLib demoClient promptFilled [] "482913 "
    (by decide) (by decide) (by decide)).2.2.2.1

end Assbolt
